import Mathlib

set_option maxRecDepth 10000

/-!
Shallow embedding of `src/python/internal_reasoning_engine.py`
(`InternalReasoningEngine` and `ReasoningResult`).

Python values flowing through the engine are JSON-shaped: `None`, booleans,
numbers, strings, lists and dictionaries.  Numbers are modelled as integers
(the engine never computes with floats).  Dictionaries are modelled as
insertion-ordered association lists, which is exactly the observable
behaviour of Python dicts.  All text handled by the claims is ASCII, and
`str.lower` / `\w` / `\d` are modelled at ASCII granularity.
-/

/-- Universe of Python values handled by the engine. -/
inductive Value where
  | null : Value
  | bool : Bool → Value
  | int : Int → Value
  | str : String → Value
  | list : List Value → Value
  | dict : List (String × Value) → Value

/-- Python type name of a value, as used in runtime error messages. -/
def pyTypeName : Value → String
  | .null => "NoneType"
  | .bool _ => "bool"
  | .int _ => "int"
  | .str _ => "str"
  | .list _ => "list"
  | .dict _ => "dict"

/-- Python truthiness (`bool(v)`). -/
def Value.truthy : Value → Bool
  | .null => false
  | .bool b => b
  | .int n => n != 0
  | .str s => s != ""
  | .list l => !l.isEmpty
  | .dict d => !d.isEmpty

/-- Numeric view: Python compares `bool` and `int` by value (`True == 1`). -/
def valNum : Value → Option Int
  | .bool b => some (if b then 1 else 0)
  | .int n => some n
  | _ => none

/-- Equality of hashable scalar values, as Python `==` computes it on the
values that can appear as dict keys here.  Deduplication via
`dict.fromkeys` only ever compares hashable values (it raises before
comparing an unhashable one), so no recursive case is needed. -/
def eqScalar : Value → Value → Bool
  | .null, .null => true
  | .str a, .str b => a == b
  | a, b =>
    match valNum a, valNum b with
    | some x, some y => x == y
    | _, _ => false

/-- `d.get(k)` returning `none` when the key is absent. -/
def dgetOpt (d : List (String × Value)) (k : String) : Option Value :=
  match d.find? (fun p => p.1 == k) with
  | some p => some p.2
  | none => none

/-- `d.get(k, dflt)`. -/
def dget (d : List (String × Value)) (k : String) (dflt : Value) : Value :=
  (dgetOpt d k).getD dflt

/-- `d[k] = v` on a Python dict: overwrite in place if the key exists
(keeping its position in insertion order), otherwise append. -/
def setKey (d : List (String × Value)) (k : String) (v : Value) :
    List (String × Value) :=
  if d.any (fun p => p.1 == k) then
    d.map (fun p => if p.1 == k then (k, v) else p)
  else d ++ [(k, v)]

/-- `d.update(upd)`: merge the entries of `upd` into `d` in order. -/
def pyUpdate (d upd : List (String × Value)) : List (String × Value) :=
  upd.foldl (fun acc p => setKey acc p.1 p.2) d

/-- Hashable values (dict keys): everything except lists and dicts. -/
def hashable : Value → Bool
  | .list _ => false
  | .dict _ => false
  | _ => true

/-- Deduplication keeping the first occurrence, as `list(dict.fromkeys(l))`
computes it on hashable elements. -/
def dedupGo (seen : List Value) : List Value → List Value
  | [] => []
  | v :: rest =>
    if seen.any (fun x => eqScalar x v) then dedupGo seen rest
    else v :: dedupGo (v :: seen) rest

/-- `list(dict.fromkeys(l))`. -/
def dedupFirst (l : List Value) : List Value := dedupGo [] l

/-- Python `l[-n:]`: the last `n` elements (all of `l` if it is shorter). -/
def takeLast (n : Nat) (l : List Value) : List Value := l.drop (l.length - n)

/-!  ## Environment diagnostics (`collect_environment_context`, lines 81-90)

The three ambient probes (`os.getcwd()`, `os.environ.get("USER", "unknown")`,
`os.uname().nodename`) are the only places the engine touches process state.
Each probe either yields a string or raises; a raised fault carries its
description. -/

/-- Outcome of the three ambient probes for one invocation. -/
structure EnvProbes where
  cwd : Except String String
  user : Except String String
  hostname : Except String String

/-- `collect_environment_context`: the `try` block builds the full dict,
evaluating `cwd`, `user`, `hostname` in order; on any fault the handler
returns `{"cwd": os.getcwd()}` — calling `os.getcwd()` a second time, so a
failing cwd probe raises out of the handler as well. -/
def collectEnvironmentContext (env : EnvProbes) :
    Except String (List (String × Value)) :=
  match env.cwd, env.user, env.hostname with
  | .ok c, .ok u, .ok h =>
    .ok [("cwd", .str c), ("user", .str u), ("hostname", .str h)]
  | _, _, _ =>
    match env.cwd with
    | .ok c => .ok [("cwd", .str c)]
    | .error e => .error e

/-!  ## Context normalization (`aggregate_context`, lines 92-113) -/

/-- Normalization of one list value: `list(dict.fromkeys(value))[-50:]`.
`dict.fromkeys` raises `TypeError` as soon as it meets an unhashable
element (a nested list or dict). -/
def normalizeListE (l : List Value) : Except String (List Value) :=
  match l.find? (fun x => !hashable x) with
  | some (.dict _) => .error "unhashable type: 'dict'"
  | some _ => .error "unhashable type: 'list'"
  | none => .ok (takeLast 50 (dedupFirst l))

/-- The `for key, value in context.items()` loop of `aggregate_context`:
null values dropped, lists deduplicated and capped to the last 50 entries,
empty dicts dropped, everything else copied. -/
def aggregateEntries (acc : List (String × Value)) :
    List (String × Value) → Except String (List (String × Value))
  | [] => .ok acc
  | (k, v) :: rest =>
    match v with
    | .null => aggregateEntries acc rest
    | .list l =>
      match normalizeListE l with
      | .error e => .error e
      | .ok nl => aggregateEntries (setKey acc k (.list nl)) rest
    | .dict d =>
      if d.isEmpty then aggregateEntries acc rest
      else aggregateEntries (setKey acc k (.dict d)) rest
    | v => aggregateEntries (setKey acc k v) rest

/-- `aggregate_context`: normalize every entry, then overwrite the
`environment` key with freshly collected diagnostics. -/
def aggregateContext (c : List (String × Value)) (env : EnvProbes) :
    Except String (List (String × Value)) :=
  match aggregateEntries [] c with
  | .error e => .error e
  | .ok base =>
    match collectEnvironmentContext env with
    | .error e => .error e
    | .ok e => .ok (setKey base "environment" (.dict e))

/-!  ## Character-level utilities (ASCII) -/

/-- ASCII letter. -/
def isAlpha (c : Char) : Bool :=
  ('A' ≤ c && c ≤ 'Z') || ('a' ≤ c && c ≤ 'z')

/-- ASCII digit. -/
def isDigitCh (c : Char) : Bool := '0' ≤ c && c ≤ '9'

/-- ASCII letter or digit. -/
def isAlnum (c : Char) : Bool := isAlpha c || isDigitCh c

/-- `str.lower()` at ASCII granularity. -/
def lowerChars (s : List Char) : List Char := s.map Char.toLower

/-- Does `hay` start with `needle`? -/
def startsWithChars : List Char → List Char → Bool
  | [], _ => true
  | _ :: _, [] => false
  | a :: as, b :: bs => a == b && startsWithChars as bs

/-- Python `needle in hay` on strings: substring containment. -/
def containsSub : List Char → List Char → Bool
  | needle, [] => needle.isEmpty
  | needle, c :: t => startsWithChars needle (c :: t) || containsSub needle t

example : containsSub "time".data "downtime!".data = true := rfl
example : containsSub "time".data "tmie".data = false := rfl
example : lowerChars "TimeOut".data = "timeout".data := rfl

/-!  ## Python `str()` / `repr()` of values (used by f-strings) -/

mutual

/-- Python `repr(v)` for the value universe. -/
def pyRepr : Value → String
  | .null => "None"
  | .bool b => if b then "True" else "False"
  | .int n => toString n
  | .str s => "'" ++ s ++ "'"
  | .list l => "[" ++ pyReprList l ++ "]"
  | .dict d => "\x7b" ++ pyReprDict d ++ "\x7d"

/-- Comma-separated reprs of list elements. -/
def pyReprList : List Value → String
  | [] => ""
  | [v] => pyRepr v
  | v :: rest => pyRepr v ++ ", " ++ pyReprList rest

/-- Comma-separated `'key': value` reprs of dict entries. -/
def pyReprDict : List (String × Value) → String
  | [] => ""
  | [(k, v)] => "'" ++ k ++ "': " ++ pyRepr v
  | (k, v) :: rest => "'" ++ k ++ "': " ++ pyRepr v ++ ", " ++ pyReprDict rest

end

/-- Python `str(v)`: like `repr` but strings print verbatim. -/
def pyStr : Value → String
  | .str s => s
  | v => pyRepr v

/-!  ## Root-cause classification (`_root_cause_analysis`, lines 121-130)
and remediation advice (`_suggest_next_steps`, lines 132-147) -/

/-- The classification rule chain of `_root_cause_analysis`, as a pure
function of the message text.  The Python function has no `else` branch and
implicitly returns `None` when no rule matches; that unclassified outcome
is modelled as `none`. -/
def classifyMsg (msg : String) : Option String :=
  let m := lowerChars msg.data
  if containsSub "timeout".data m then some "Timeout"
  else if containsSub "network".data m then some "NetworkError"
  else if containsSub "permission".data m then some "PermissionDenied"
  else if containsSub "rate".data m && containsSub "limit".data m then
    some "RateLimit"
  else none

/-- `_root_cause_analysis(issue)`: reads `str(issue.get("Error", ""))` and
runs the substring rule chain on it. -/
def rootCauseAnalysis (issue : List (String × Value)) : Option String :=
  let msg := pyStr (dget issue "Error" (.str ""))
  if containsSub "timeout".data (lowerChars msg.data) then some "Timeout"
  else if containsSub "network".data (lowerChars msg.data) then
    some "NetworkError"
  else if containsSub "permission".data (lowerChars msg.data) then
    some "PermissionDenied"
  else if containsSub "rate".data (lowerChars msg.data) &&
      containsSub "limit".data (lowerChars msg.data) then
    some "RateLimit"
  else none

/-- `_suggest_next_steps(cause)`: the remediation policy table. -/
def suggestNextSteps (cause : Option String) : Bool × List String :=
  if cause == some "Timeout" then
    (true, ["Retry operation with backoff"])
  else if cause == some "NetworkError" then
    (true, ["Check network connectivity and retry"])
  else if cause == some "PermissionDenied" then
    (false, ["Verify permissions or escalate"])
  else if cause == some "RateLimit" then
    (false, ["Wait before retrying to respect rate limits"])
  else
    (false, ["Escalate to human operator"])

example : classifyMsg "Connection timeout" = some "Timeout" := rfl
example : classifyMsg "Rate LIMIT hit" = some "RateLimit" := rfl
example : classifyMsg "boom" = none := rfl

/-!  ## Identifier extraction (`_extract_identifier`, lines 63-79)

The email pattern is `\b[A-Za-z0-9._%+-]+@[A-Za-z0-9.-]+\.[A-Za-z]{2,}\b`.
Its leftmost-match-with-greedy-backtracking semantics is implemented
directly: the local-part and TLD pluses cannot backtrack usefully (their
character classes exclude the required follower), while the domain plus
backtracks from its maximal run down to length one looking for a dot
followed by at least two letters and a word boundary. -/

/-- Characters of the email local part class `[A-Za-z0-9._%+-]`. -/
def isLocalCh (c : Char) : Bool :=
  isAlnum c || c == '.' || c == '_' || c == '%' || c == '+' || c == '-'

/-- Characters of the email domain class `[A-Za-z0-9.-]`. -/
def isDomainCh (c : Char) : Bool := isAlnum c || c == '.' || c == '-'

/-- Regex word characters `\w` at ASCII granularity. -/
def isWordCh (c : Char) : Bool := isAlnum c || c == '_'

/-- Characters of the token class `[A-Za-z0-9._-]` used by the fallback. -/
def isTokenCh (c : Char) : Bool :=
  isAlnum c || c == '.' || c == '_' || c == '-'

/-- Length of the maximal run of `p`-characters in `s`. -/
def runLenAux (p : Char → Bool) : List Char → Nat
  | [] => 0
  | c :: t => if p c then runLenAux p t + 1 else 0

/-- Length of the maximal run of `p`-characters starting at index `i`. -/
def runLen (p : Char → Bool) (s : List Char) (i : Nat) : Nat :=
  runLenAux p (s.drop i)

/-- Is the character at index `i` a word character (out of range: no)? -/
def wordAt (s : List Char) (i : Nat) : Bool := isWordCh (s.getD i ' ')

/-- Word boundary `\b` before index `i`. -/
def boundaryAt (s : List Char) (i : Nat) : Bool :=
  match i with
  | 0 => wordAt s 0
  | j + 1 => wordAt s j != wordAt s (j + 1)

/-- Try `[A-Za-z]{2,}\b` at index `q`; only the maximal letter run can end
on a boundary.  Returns the end index on success. -/
def tldTry (s : List Char) (q : Nat) : Option Nat :=
  let t := runLen isAlpha s q
  if 2 ≤ t && boundaryAt s (q + t) then some (q + t) else none

/-- Greedy backtracking of the domain `[A-Za-z0-9.-]+` starting at index
`a`: try run length `n`, `n-1`, ..., `1`, each followed by
`\.[A-Za-z]{2,}\b`. -/
def domainBack (s : List Char) (a : Nat) : Nat → Option Nat
  | 0 => none
  | n + 1 =>
    if s.getD (a + n + 1) ' ' == '.' then
      match tldTry s (a + n + 2) with
      | some e => some e
      | none => domainBack s a n
    else domainBack s a n

/-- Attempt the email pattern anchored at index `i`.  Returns
`(start, stop)` on success. -/
def emailTryAt (s : List Char) (i : Nat) : Option (Nat × Nat) :=
  if !boundaryAt s i then none
  else
    let lp := runLen isLocalCh s i
    if lp == 0 then none
    else if s.getD (i + lp) ' ' == '@' then
      let a := i + lp + 1
      match domainBack s a (runLen isDomainCh s a) with
      | some e => some (i, e)
      | none => none
    else none

/-- Scan of `re.search`: leftmost starting index whose anchored attempt
succeeds. -/
def emailSearchAux (s : List Char) (i : Nat) : Nat → Option (Nat × Nat)
  | 0 => none
  | fuel + 1 =>
    match emailTryAt s i with
    | some r => some r
    | none => emailSearchAux s (i + 1) fuel

/-- `re.search(email_pattern, s)`, returning the matched substring. -/
def emailSearch (s : List Char) : Option (List Char) :=
  match emailSearchAux s 0 (s.length + 1) with
  | some (i, e) => some ((s.drop i).take (e - i))
  | none => none

/-- `re.findall(r"[A-Za-z0-9._-]+", text)`: maximal token runs.  `cur`
holds the current run reversed. -/
def tokenizeGo (cur : List Char) : List Char → List (List Char)
  | [] => if cur.isEmpty then [] else [cur.reverse]
  | c :: t =>
    if isTokenCh c then tokenizeGo (c :: cur) t
    else if cur.isEmpty then tokenizeGo [] t
    else cur.reverse :: tokenizeGo [] t

/-- Token list of a text. -/
def tokenize (s : List Char) : List (List Char) := tokenizeGo [] s

/-- The token filter of `_extract_identifier`: length at least 3, not
purely numeric (`tok.isdigit()`), contains `.` or `_`, and contains a
letter. -/
def tokenOk (tok : List Char) : Bool :=
  3 ≤ tok.length && !(!tok.isEmpty && tok.all isDigitCh) &&
    (tok.contains '.' || tok.contains '_') && tok.any isAlpha

/-- `_extract_identifier(text)`: email match first, then the first
structured token, then the last token, then the text itself. -/
def extractIdentifier (text : String) : String :=
  match emailSearch text.data with
  | some m => String.mk m
  | none =>
    let toks := tokenize text.data
    match toks.find? tokenOk with
    | some t => String.mk t
    | none =>
      match toks.getLast? with
      | some t => String.mk t
      | none => text

example : extractIdentifier "Error: user alice.jones@example.com not found" =
    "alice.jones@example.com" := rfl
example : extractIdentifier "Validation failed for mailbox shared_mailbox_01" =
    "shared_mailbox_01" := rfl
example : extractIdentifier "user bob.smiht not found" = "bob.smiht" := rfl
example : extractIdentifier "code 1234" = "1234" := rfl

/-!  ## Fuzzy matching (`_suggest_match`, lines 47-61)

`difflib.get_close_matches(word, possibilities, n=1, cutoff=0.7)` filters
the possibilities whose `SequenceMatcher(None, x, word).ratio()` reaches the
cutoff and keeps the largest `(ratio, x)` pair.  `SequenceMatcher` is
modelled without the junk heuristics: `autojunk` only activates for
sequences of length 200 or more, which never occur here, and with no junk
the post-search extension loops of `find_longest_match` are no-ops (they
are still modelled).  The quick-ratio prefilters are upper bounds of
`ratio`, so the filter is equivalent to `ratio >= cutoff`, modelled
exactly over the rationals as `20 * M >= 7 * T` where `ratio = 2M/T`. -/

/-- The `j2len` map of `find_longest_match`: diagonal run lengths. -/
def j2lenGet (m : List (Nat × Nat)) (j : Nat) : Nat :=
  match m.find? (fun p => p.1 == j) with
  | some p => p.2
  | none => 0

/-- State of the `find_longest_match` dynamic program. -/
structure FlmState where
  j2len : List (Nat × Nat)
  besti : Nat
  bestj : Nat
  bestsize : Nat

/-- One outer iteration (index `i` into `a`) of `find_longest_match`:
scan the indices `j` of `b` in `[blo, bhi)` in ascending order, extend
diagonal runs, and update the strictly-best block.  The `j = 0` case reads
`j2len.get(-1, 0) = 0` in Python, hence starts a fresh run. -/
def flmStep (a b : List Char) (blo bhi : Nat) (st : FlmState) (i : Nat) :
    FlmState :=
  let out := (List.range' blo (bhi - blo)).foldl
    (fun (acc : List (Nat × Nat) × Nat × Nat × Nat) j =>
      let (m, bi, bj, bs) := acc
      if b.getD j ' ' == a.getD i ' ' then
        let k := if j == 0 then 1 else j2lenGet st.j2len (j - 1) + 1
        if bs < k then ((j, k) :: m, i + 1 - k, j + 1 - k, k)
        else ((j, k) :: m, bi, bj, bs)
      else acc)
    ([], st.besti, st.bestj, st.bestsize)
  ⟨out.1, out.2.1, out.2.2.1, out.2.2.2⟩

/-- Backward extension loop of `find_longest_match` (with no junk every
character adjacent to the best block already fails the match, so this
cannot fire; it is kept for faithfulness).  Fuel bounds the walk. -/
def extendBack (a b : List Char) (alo blo : Nat) :
    Nat → Nat × Nat × Nat → Nat × Nat × Nat
  | 0, st => st
  | fuel + 1, (bi, bj, bs) =>
    if alo < bi && blo < bj && a.getD (bi - 1) ' ' == b.getD (bj - 1) ' '
    then extendBack a b alo blo fuel (bi - 1, bj - 1, bs + 1)
    else (bi, bj, bs)

/-- Forward extension loop of `find_longest_match`. -/
def extendFwd (a b : List Char) (ahi bhi : Nat) :
    Nat → Nat × Nat × Nat → Nat × Nat × Nat
  | 0, st => st
  | fuel + 1, (bi, bj, bs) =>
    if bi + bs < ahi && bj + bs < bhi &&
        a.getD (bi + bs) ' ' == b.getD (bj + bs) ' '
    then extendFwd a b ahi bhi fuel (bi, bj, bs + 1)
    else (bi, bj, bs)

/-- `SequenceMatcher.find_longest_match(alo, ahi, blo, bhi)` with no junk:
first match in `a` wins among equal sizes, then first in `b`. -/
def findLongestMatch (a b : List Char) (alo ahi blo bhi : Nat) :
    Nat × Nat × Nat :=
  let st := (List.range' alo (ahi - alo)).foldl (flmStep a b blo bhi)
    ⟨[], alo, blo, 0⟩
  let s1 := extendBack a b alo blo st.besti (st.besti, st.bestj, st.bestsize)
  extendFwd a b ahi bhi ahi s1

/-- Total size of the matching blocks of `get_matching_blocks` restricted
to the window `[alo, ahi) × [blo, bhi)`: recursively take the longest
match and recurse on both sides.  The fuel dominates the recursion depth
(each side strictly shrinks the window); it is never exhausted when
called with `ahi + bhi + 1`. -/
def matchedTotal (a b : List Char) :
    Nat → Nat → Nat → Nat → Nat → Nat
  | 0, _, _, _, _ => 0
  | fuel + 1, alo, ahi, blo, bhi =>
    let (i, j, k) := findLongestMatch a b alo ahi blo bhi
    if k == 0 then 0
    else
      (if alo < i && blo < j then matchedTotal a b fuel alo i blo j else 0) +
      k +
      (if i + k < ahi && j + k < bhi then
        matchedTotal a b fuel (i + k) ahi (j + k) bhi else 0)

/-- `(2 * M, T)` for `SequenceMatcher(None, x, word).ratio() = 2M/T`. -/
def ratioParts (x word : List Char) : Nat × Nat :=
  let M := matchedTotal x word (x.length + word.length + 1)
    0 x.length 0 word.length
  (2 * M, x.length + word.length)

/-- Lexicographic comparison of strings by code point (Python `<`). -/
def strLt : List Char → List Char → Bool
  | [], [] => false
  | [], _ :: _ => true
  | _ :: _, [] => false
  | c :: s, d :: t => c.toNat < d.toNat || (c == d && strLt s t)

/-- `difflib.get_close_matches(word, possibilities, n=1, cutoff=0.7)`:
keep the possibilities with ratio at least 0.7 and return the maximum
under the `(ratio, x)` tuple order (first occurrence wins full ties, as
Python `max` does). -/
def pickBest (best : Option (Nat × Nat × List Char))
    (c : Nat × Nat × List Char) : Option (Nat × Nat × List Char) :=
  match best with
  | none => some c
  | some b =>
    if b.1 * c.2.1 < c.1 * b.2.1 ||
        (b.1 * c.2.1 == c.1 * b.2.1 && strLt b.2.2 c.2.2)
    then some c else some b

def getCloseMatches1 (word : List Char) (poss : List (List Char)) :
    Option (List Char) :=
  let scored := poss.filterMap (fun x =>
    let r := ratioParts x word
    if 7 * r.2 ≤ 10 * r.1 then some (r.1, r.2, x) else none)
  (scored.foldl pickBest none).map (fun p => p.2.2)

/-- The two passes of `_suggest_match` after lower-casing: whole
candidates first, then the local parts (text before the first `@`),
mapping a local-part hit back to the full candidate at the first index
carrying that local part (`local_parts.index(match[0])`). -/
def suggestFromLower (valueLower : List Char) (lowerCands : List (List Char)) :
    Option (List Char) :=
  match getCloseMatches1 valueLower lowerCands with
  | some m => some m
  | none =>
    match getCloseMatches1 valueLower
        (lowerCands.map (fun c => c.takeWhile (fun ch => ch != '@'))) with
    | some m =>
      some (lowerCands.getD
        ((lowerCands.map (fun c => c.takeWhile (fun ch => ch != '@'))).findIdx
          (fun c => c == m)) [])
    | none => none

/-- `_suggest_match(value, candidates)` on string candidates: `None` for an
empty value or empty candidate list, otherwise the two fuzzy passes over
the lower-cased strings. -/
def suggestMatchStr (value : String) (candidates : List String) :
    Option String :=
  if value == "" || candidates.isEmpty then none
  else
    (suggestFromLower (lowerChars value.data)
      (candidates.map (fun c => lowerChars c.data))).map String.mk

example : ratioParts "bob.smith".data "bob.smiht".data = (16, 18) := rfl
example : suggestMatchStr "bob.smiht" ["bob.smith@example.gov"] =
    some "bob.smith@example.gov" := rfl
example : suggestMatchStr "xyz" [] = none := rfl
example : suggestMatchStr "" ["a"] = none := rfl

/-!  ## Reasoning results and resolvers (lines 9-32, 149-243)

Operations that can raise in Python (attribute access on the wrong type,
iterating a non-iterable) are modelled in `Except String`, the error being
the fault's description. -/

/-- `ReasoningResult` (lines 9-32).  A fresh instance has `resolved=False`,
empty resolution, empty `updated_request` and `actions`, and no plan. -/
structure ReasoningResult where
  resolved : Bool
  resolution : String
  updated_request : List (String × Value)
  actions : List String
  suggested_plan : Option Value

/-- `ReasoningResult()` with all defaults. -/
def emptyResult : ReasoningResult := ⟨false, "", [], [], none⟩

/-- `v.get(...)` on a non-dict raises `AttributeError`. -/
def getAttrDictE (v : Value) : Except String (List (String × Value)) :=
  match v with
  | .dict d => .ok d
  | v => .error ("'" ++ pyTypeName v ++ "' object has no attribute 'get'")

/-- `for x in v`: lists yield elements, strings yield one-character
strings, dicts yield their keys, everything else raises `TypeError`. -/
def pyIterObj : Value → Except String (List Value)
  | .list l => .ok l
  | .str s => .ok (s.data.map (fun c => Value.str (String.mk [c])))
  | .dict d => .ok (d.map (fun p => Value.str p.1))
  | v => .error ("'" ++ pyTypeName v ++ "' object is not iterable")

/-- `x.lower()` raises `AttributeError` on non-strings. -/
def lowerAttrE : Value → Except String String
  | .str s => .ok s
  | v => .error ("'" ++ pyTypeName v ++ "' object has no attribute 'lower'")

/-- The list comprehension `[c.lower() for c in candidates]` without the
lower-casing applied yet: iterate and demand strings. -/
def strListE (v : Value) : Except String (List String) :=
  match pyIterObj v with
  | .error e => .error e
  | .ok items =>
    items.foldr
      (fun x acc =>
        match lowerAttrE x with
        | .error e => .error e
        | .ok s =>
          match acc with
          | .error e => .error e
          | .ok rest => .ok (s :: rest))
      (.ok [])

/-- `_suggest_match(value, candidates)` with a raw `Value` candidate
collection, as called from the validation resolver. -/
def suggestMatchE (value : String) (candidates : Value) :
    Except String (Option String) :=
  if value == "" || !candidates.truthy then .ok none
  else
    match strListE candidates with
    | .error e => .error e
    | .ok cs => .ok (suggestMatchStr value cs)

/-- Assignment into the `suggestions` dict of the validation resolver. -/
def setKeyStr (d : List (String × String)) (k v : String) :
    List (String × String) :=
  if d.any (fun p => p.1 == k) then
    d.map (fun p => if p.1 == k then (k, v) else p)
  else d ++ [(k, v)]

/-- Python `repr` of the `suggestions` dict of string pairs, as the
f-string `f"Applied corrections: {suggestions}"` prints it. -/
def reprStrDict (l : List (String × String)) : String :=
  "\x7b" ++
    String.intercalate ", "
      (l.map (fun p => "'" ++ p.1 ++ "': '" ++ p.2 ++ "'")) ++
  "\x7d"

/-- The `for err in errors` loop of `_resolve_validation_failure`: lower
each error, extract an identifier, fuzzy-match against `KnownUsers` or
`KnownMailboxes`, and record successful matches. -/
def suggestionLoop (ctx : List (String × Value)) :
    List Value → List (String × String) →
    Except String (List (String × String))
  | [], acc => .ok acc
  | e :: rest, acc =>
    match lowerAttrE e with
    | .error msg => .error msg
    | .ok err =>
      let lowered := lowerChars err.data
      let identifier := extractIdentifier err
      if containsSub "user".data lowered then
        match suggestMatchE identifier (dget ctx "KnownUsers" (.list [])) with
        | .error msg => .error msg
        | .ok (some m) => suggestionLoop ctx rest (setKeyStr acc identifier m)
        | .ok none => suggestionLoop ctx rest acc
      else if containsSub "mailbox".data lowered then
        match suggestMatchE identifier
            (dget ctx "KnownMailboxes" (.list [])) with
        | .error msg => .error msg
        | .ok (some m) => suggestionLoop ctx rest (setKeyStr acc identifier m)
        | .ok none => suggestionLoop ctx rest acc
      else suggestionLoop ctx rest acc

/-- `"; ".join(errors)`: join demands string items. -/
def joinSemicolonE (items : List Value) : Except String String :=
  match items.foldr
      (fun x (acc : Except String (List String)) =>
        match x with
        | Value.str s =>
          (match acc with
            | Except.error e => Except.error e
            | Except.ok rest => Except.ok (s :: rest))
        | v => Except.error ("sequence item: expected str instance, " ++
            pyTypeName v ++ " found"))
      (Except.ok []) with
  | .error e => .error e
  | .ok strs => .ok (String.intercalate "; " strs)

/-- `_resolve_validation_failure` (lines 187-218). -/
def resolveValidationFailure (issue ctx : List (String × Value)) :
    Except String ReasoningResult :=
  match getAttrDictE (dget issue "ValidationResult" (.dict [])) with
  | .error e => .error e
  | .ok vr =>
    if !(dget vr "Errors" (.list [])).truthy &&
        (dget vr "Warnings" .null).truthy then
      .ok { emptyResult with
        resolved := true, resolution := "Validation warnings acknowledged" }
    else
      match pyIterObj (dget vr "Errors" (.list [])) with
      | .error e => .error e
      | .ok errItems =>
        match suggestionLoop ctx errItems [] with
        | .error e => .error e
        | .ok suggestions =>
          if suggestions.isEmpty then
            match pyIterObj (dget vr "Errors" (.list [])) with
            | .error e => .error e
            | .ok items =>
              match joinSemicolonE items with
              | .error e => .error e
              | .ok joined =>
                .ok { emptyResult with
                  resolution := "Unable to auto-resolve validation errors",
                  actions := ["Validation errors: " ++ joined] }
          else
            .ok { emptyResult with
              resolved := true,
              resolution := "Entity corrections applied",
              updated_request :=
                [("Corrections",
                  .dict (suggestions.map (fun p => (p.1, Value.str p.2))))],
              actions := ["Applied corrections: " ++ reprStrDict suggestions] }

/-- `_resolve_tool_error` (lines 220-231): no fault points. -/
def resolveToolError (issue _ctx : List (String × Value)) : ReasoningResult :=
  let cause := rootCauseAnalysis issue
  let advice := suggestNextSteps cause
  { emptyResult with
    resolved := advice.1,
    resolution :=
      if advice.1 then "Automatic remediation suggested"
      else "Tool execution error analyzed",
    actions :=
      ["Error: " ++ pyStr (dget issue "Error" .null),
       "RootCause: " ++
         pyStr (match cause with | some s => .str s | none => .null)] ++
      advice.2 }

/-- `_resolve_low_confidence` (lines 233-243). -/
def resolveLowConfidence (issue _ctx : List (String × Value)) :
    Except String ReasoningResult :=
  match getAttrDictE (dget issue "Metrics" (.dict [])) with
  | .error e => .error e
  | .ok metrics =>
    let stage := dget issue "Stage" (.str "")
    let lbV := dget metrics "LowerBound" .null
    .ok { emptyResult with
      resolution := "Low confidence detected at " ++ pyStr stage,
      actions :=
        (match lbV with
          | .null => []
          | v => ["LowerBound: " ++ pyStr v]) ++
        ["Reanalyzing context and suggesting improvements"] }

/-- `_dispatch` (lines 149-160): route by the `Type` field; unknown types
yield an unresolved "Unknown issue type" result. -/
def dispatchE (issue ctx : List (String × Value)) :
    Except String ReasoningResult :=
  if eqScalar (dget issue "Type" .null) (.str "ValidationFailure") then
    resolveValidationFailure issue ctx
  else if eqScalar (dget issue "Type" .null) (.str "ToolError") then
    .ok (resolveToolError issue ctx)
  else if eqScalar (dget issue "Type" .null) (.str "LowConfidence") then
    resolveLowConfidence issue ctx
  else .ok { emptyResult with resolution := "Unknown issue type" }

/-!  ## The engine (`__init__` lines 42-45, `resolve` lines 162-185) -/

/-- Engine state: only the clamped iteration cap matters (the logger is
behaviourally inert). -/
structure Engine where
  maxIterations : Nat

/-- `InternalReasoningEngine(max_iterations=m)`: the requested cap is
clamped to `[1, 10]` by `max(1, min(max_iterations, 10))`. -/
def engineOf (m : Int) : Engine := ⟨(max 1 (min m 10)).toNat⟩

/-- Outcome of the `for attempt in range(self.max_iterations)` loop:
the last assigned result, the working issue, the number of dispatch
attempts, and the description of an uncaught dispatch fault if one was
raised. -/
structure LoopOut where
  result : ReasoningResult
  cur : List (String × Value)
  count : Nat
  fault : Option String

/-- The iteration loop of `resolve`: dispatch against the working issue
and the normalized context; stop on a resolved result; otherwise merge a
non-empty `updated_request` into the working issue and retry.  A raised
fault aborts the loop, leaving the previously assigned result in place. -/
def resolveLoop (ctx : List (String × Value)) :
    Nat → List (String × Value) → ReasoningResult → Nat → LoopOut
  | 0, cur, last, cnt => ⟨last, cur, cnt, none⟩
  | n + 1, cur, last, cnt =>
    match dispatchE cur ctx with
    | .error d => ⟨last, cur, cnt + 1, some d⟩
    | .ok r =>
      if r.resolved then ⟨r, cur, cnt + 1, none⟩
      else
        resolveLoop ctx n
          (if !r.updated_request.isEmpty then pyUpdate cur r.updated_request
           else cur)
          r (cnt + 1)

/-- Full observable outcome of one `resolve` call: the returned result,
how many dispatches ran, the final working issue (the caller's issue
object, possibly mutated by `current_issue.update`), the caught fault if
any, and the loop's final result before escalation post-processing when
the loop completed without fault. -/
structure RunOut where
  result : ReasoningResult
  dispatches : Nat
  workIssue : Value
  fault : Option String
  loopResult : Option ReasoningResult

/-- `resolve(issue, context)` (lines 162-185): validate the input shapes,
normalize the context, run the iteration loop, append the escalation
outcome when unresolved, and convert any uncaught fault into a reported
result whose resolution is the fault's description. -/
def resolveRun (e : Engine) (issue ctx : Value) (env : EnvProbes) : RunOut :=
  match issue, ctx with
  | Value.dict di, Value.dict dc =>
    (match aggregateContext dc env with
      | .error d => ⟨{ emptyResult with resolution := d }, 0, issue, some d, none⟩
      | .ok nctx =>
        let lr := resolveLoop nctx e.maxIterations di emptyResult 0
        match lr.fault with
        | some d =>
          ⟨{ lr.result with resolution := d }, lr.count, Value.dict lr.cur,
            some d, none⟩
        | none =>
          ⟨(if !lr.result.resolved then
              { lr.result with
                resolution := "Escalation required after max iterations",
                actions := lr.result.actions ++ ["Escalated to human review"] }
            else lr.result),
            lr.count, Value.dict lr.cur, none, some lr.result⟩)
  | Value.dict _, _ =>
    ⟨{ emptyResult with resolution := "context must be a dictionary" }, 0,
      issue, some "context must be a dictionary", none⟩
  | _, _ =>
    ⟨{ emptyResult with resolution := "issue must be a dictionary" }, 0,
      issue, some "issue must be a dictionary", none⟩

/-- The `ReasoningResult` returned to the caller. -/
def Engine.resolve (e : Engine) (issue ctx : Value) (env : EnvProbes) :
    ReasoningResult :=
  (resolveRun e issue ctx env).result

/-- A concrete healthy environment, used by the witnesses. -/
def envAllOk : EnvProbes :=
  ⟨.ok "/srv/mcp", .ok "svc-mcp", .ok "mcp-host"⟩

/-!  # Theorems -/

theorem resolveLoop_count_le (ctx : List (String × Value)) :
    ∀ (n : Nat) (cur : List (String × Value)) (last : ReasoningResult)
      (cnt : Nat), (resolveLoop ctx n cur last cnt).count ≤ cnt + n := by
  intro n
  induction n with
  | zero => intro cur last cnt; simp [resolveLoop]
  | succ k ih =>
    intro cur last cnt
    simp only [resolveLoop]
    cases h : dispatchE cur ctx with
    | error d => simp
    | ok r =>
      by_cases hr : r.resolved
      · simp [hr]
      · simp [hr]
        have := ih (if !r.updated_request.isEmpty then pyUpdate cur r.updated_request else cur) r (cnt + 1)
        omega

theorem resolveLoop_fault_unresolved (ctx : List (String × Value)) :
    ∀ (n : Nat) (cur : List (String × Value)) (last : ReasoningResult)
      (cnt : Nat), last.resolved = false →
      (resolveLoop ctx n cur last cnt).fault.isSome = true →
      (resolveLoop ctx n cur last cnt).result.resolved = false := by
  intro n
  induction n with
  | zero => intro cur last cnt hl hf; simp [resolveLoop] at hf
  | succ k ih =>
    intro cur last cnt hl hf
    simp only [resolveLoop] at hf ⊢
    cases h : dispatchE cur ctx with
    | error d => simp [h] at hf ⊢; exact hl
    | ok r =>
      simp only [h] at hf ⊢
      by_cases hr : r.resolved
      · simp [hr] at hf
      · simp only [hr, if_false] at hf ⊢
        exact ih _ r (cnt + 1) (by simp [hr]) hf

/-- C4: for every integer iteration cap requested at construction the
engine's effective cap lies in `[1, 10]`, and every `resolve` call performs
at most that many dispatches. -/
theorem iteration_cap_clamped (m : Int) (issue ctx : Value) (env : EnvProbes) :
    1 ≤ (engineOf m).maxIterations ∧ (engineOf m).maxIterations ≤ 10 ∧
    (resolveRun (engineOf m) issue ctx env).dispatches ≤
      (engineOf m).maxIterations := by
  have h1 : (1 : Int) ≤ max 1 (min m 10) := le_max_left _ _
  have h2 : max 1 (min m 10) ≤ 10 :=
    max_le (by norm_num) (min_le_right _ _)
  refine ⟨?_, ?_, ?_⟩
  · simp only [engineOf]; omega
  · simp only [engineOf]; omega
  · cases issue with
    | dict di =>
      cases ctx with
      | dict dc =>
        simp only [resolveRun]
        cases ha : aggregateContext dc env with
        | error d => simp
        | ok nctx =>
          simp only []
          have := resolveLoop_count_le nctx (engineOf m).maxIterations di emptyResult 0
          cases hf : (resolveLoop nctx (engineOf m).maxIterations di emptyResult 0).fault with
          | none => simp [hf]; omega
          | some d => simp [hf]; omega
      | null => simp [resolveRun]
      | bool b => simp [resolveRun]
      | int n => simp [resolveRun]
      | str s => simp [resolveRun]
      | list l => simp [resolveRun]
    | null => simp [resolveRun]
    | bool b => simp [resolveRun]
    | int n => simp [resolveRun]
    | str s => simp [resolveRun]
    | list l => simp [resolveRun]

/-- C1: any fault raised during input validation, context normalization
or a resolver dispatch is converted into the returned `ReasoningResult`
(`resolve` is a total function, so no fault ever reaches the caller): the
result is unresolved and its resolution text is the fault's description. -/
theorem resolve_converts_faults (e : Engine) (issue ctx : Value)
    (env : EnvProbes) (d : String)
    (h : (resolveRun e issue ctx env).fault = some d) :
    (e.resolve issue ctx env).resolved = false ∧
    (e.resolve issue ctx env).resolution = d := by
  unfold Engine.resolve
  cases issue with
  | dict di =>
    cases ctx with
    | dict dc =>
      simp only [resolveRun] at h ⊢
      cases ha : aggregateContext dc env with
      | error d0 =>
        simp [ha] at h ⊢
        simp [emptyResult, h]
      | ok nctx =>
        simp only [ha] at h ⊢
        cases hf : (resolveLoop nctx e.maxIterations di emptyResult 0).fault with
        | none => simp [hf] at h
        | some d0 =>
          have hres := resolveLoop_fault_unresolved nctx e.maxIterations di
            emptyResult 0 (by simp [emptyResult]) (by simp [hf])
          simp only [hf] at h ⊢
          simp_all
    | null => simp [resolveRun] at h ⊢; simp [emptyResult, h]
    | bool b => simp [resolveRun] at h ⊢; simp [emptyResult, h]
    | int n => simp [resolveRun] at h ⊢; simp [emptyResult, h]
    | str s => simp [resolveRun] at h ⊢; simp [emptyResult, h]
    | list l => simp [resolveRun] at h ⊢; simp [emptyResult, h]
  | null => simp [resolveRun] at h ⊢; simp [emptyResult, h]
  | bool b => simp [resolveRun] at h ⊢; simp [emptyResult, h]
  | int n => simp [resolveRun] at h ⊢; simp [emptyResult, h]
  | str s => simp [resolveRun] at h ⊢; simp [emptyResult, h]
  | list l => simp [resolveRun] at h ⊢; simp [emptyResult, h]

/-- C1 witness. -/
theorem resolve_converts_faults_witness :
    ((engineOf 3).resolve (Value.str "broken") (Value.dict []) envAllOk).resolved
        = false ∧
    ((engineOf 3).resolve (Value.str "broken") (Value.dict [])
        envAllOk).resolution = "issue must be a dictionary" :=
  resolve_converts_faults (engineOf 3) (Value.str "broken") (Value.dict [])
    envAllOk "issue must be a dictionary" rfl

theorem find?_map_setKey (k : String) (v : Value) :
    ∀ (d : List (String × Value)),
      (d.map (fun p => if p.1 == k then (k, v) else p)).find?
          (fun p => p.1 == k) =
        if d.any (fun p => p.1 == k) then some (k, v) else none := by
  intro d
  induction d with
  | nil => simp
  | cons hd tl ih =>
    by_cases h : hd.1 = k
    · have hb : (hd.1 == k) = true := by simp [h]
      simp only [List.map_cons, hb, if_true]
      rw [List.find?_cons_of_pos _ (by simp)]
      simp [List.any_cons, hb]
    · have hb : (hd.1 == k) = false := by simp [h]
      simp only [List.map_cons, hb, Bool.false_eq_true, if_false]
      rw [List.find?_cons_of_neg _ (by simp [hb])]
      rw [ih]
      rw [List.any_cons, hb, Bool.false_or]

theorem dgetOpt_setKey_self (d : List (String × Value)) (k : String)
    (v : Value) : dgetOpt (setKey d k v) k = some v := by
  unfold setKey dgetOpt
  by_cases h : d.any (fun p => p.1 == k)
  · rw [if_pos h]
    rw [find?_map_setKey]
    simp [h]
  · rw [if_neg h]
    rw [List.find?_append]
    have hn : d.find? (fun p => p.1 == k) = none := by
      rw [List.find?_eq_none]
      intro x hx hc
      exact h (List.any_eq_true.mpr ⟨x, hx, hc⟩)
    rw [hn]
    simp [List.find?]

theorem find?_map_setKey_ne (k k' : String) (v : Value) (hne : k' ≠ k) :
    ∀ (d : List (String × Value)),
      (d.map (fun p => if p.1 == k then (k, v) else p)).find?
          (fun p => p.1 == k') = d.find? (fun p => p.1 == k') := by
  intro d
  induction d with
  | nil => simp
  | cons hd tl ih =>
    by_cases h : hd.1 = k
    · have hb : (hd.1 == k) = true := by simp [h]
      have hb1 : (k == k') = false := by
        simp only [beq_eq_false_iff_ne, ne_eq]
        exact fun hc => hne hc.symm
      have hb2 : (hd.1 == k') = false := by
        simp only [beq_eq_false_iff_ne, ne_eq, h]
        exact fun hc => hne hc.symm
      simp only [List.map_cons, hb, if_true]
      rw [List.find?_cons_of_neg _ (by simp [hb1]),
        List.find?_cons_of_neg _ (by simp [hb2])]
      exact ih
    · have hb : (hd.1 == k) = false := by simp [h]
      simp only [List.map_cons, hb, Bool.false_eq_true, if_false]
      by_cases h2 : hd.1 = k'
      · rw [List.find?_cons_of_pos _ (by simp [h2]),
          List.find?_cons_of_pos _ (by simp [h2])]
      · rw [List.find?_cons_of_neg _ (by simp [h2]),
          List.find?_cons_of_neg _ (by simp [h2])]
        exact ih

theorem dgetOpt_setKey_ne (d : List (String × Value)) (k k' : String)
    (v : Value) (hne : k' ≠ k) :
    dgetOpt (setKey d k v) k' = dgetOpt d k' := by
  unfold setKey dgetOpt
  by_cases h : d.any (fun p => p.1 == k)
  · rw [if_pos h]
    rw [find?_map_setKey_ne k k' v hne]
  · rw [if_neg h]
    rw [List.find?_append]
    have hn : List.find? (fun p => p.1 == k') [(k, v)] = none := by
      rw [List.find?_eq_none]
      intro x hx hc
      simp at hx
      subst hx
      simp only [beq_iff_eq] at hc
      exact hne hc.symm
    rw [hn]
    cases d.find? (fun p => p.1 == k') <;> simp

/-- C10: whenever `aggregate_context` returns, the `environment` key of
its output holds the freshly collected diagnostics, whatever value (even a
non-empty one) the caller supplied under that key. -/
theorem environment_refreshed (c : List (String × Value)) (env : EnvProbes)
    (out : List (String × Value))
    (h : aggregateContext c env = Except.ok out) :
    ∃ ed, collectEnvironmentContext env = Except.ok ed ∧
      dgetOpt out "environment" = some (Value.dict ed) := by
  unfold aggregateContext at h
  cases hb : aggregateEntries [] c with
  | error e => rw [hb] at h; cases h
  | ok base =>
    rw [hb] at h
    cases he : collectEnvironmentContext env with
    | error e => rw [he] at h; cases h
    | ok ed =>
      rw [he] at h
      refine ⟨ed, rfl, ?_⟩
      have hout : setKey base "environment" (Value.dict ed) = out :=
        Except.ok.inj h
      rw [← hout]
      exact dgetOpt_setKey_self base "environment" (Value.dict ed)

def staleCtx : List (String × Value) :=
  [("environment", Value.dict [("cwd", Value.str "stale")])]

def staleOut : List (String × Value) :=
  [("environment", Value.dict
    [("cwd", Value.str "/srv/mcp"), ("user", Value.str "svc-mcp"),
     ("hostname", Value.str "mcp-host")])]

/-- C10 witness. -/
theorem environment_refreshed_witness :
    ∃ ed, collectEnvironmentContext envAllOk = Except.ok ed ∧
      dgetOpt staleOut "environment" = some (Value.dict ed) :=
  environment_refreshed staleCtx envAllOk staleOut rfl

theorem resolveLoop_exhaust (ctx : List (String × Value)) :
    ∀ (n : Nat) (cur : List (String × Value)) (last : ReasoningResult)
      (cnt : Nat), (resolveLoop ctx n cur last cnt).fault = none →
      (resolveLoop ctx n cur last cnt).result.resolved = false →
      (resolveLoop ctx n cur last cnt).count = cnt + n := by
  intro n
  induction n with
  | zero => intro cur last cnt _ _; simp [resolveLoop]
  | succ k ih =>
    intro cur last cnt hf hr
    simp only [resolveLoop] at hf hr ⊢
    cases h : dispatchE cur ctx with
    | error d => simp [h] at hf
    | ok r =>
      simp only [h] at hf hr ⊢
      by_cases hres : r.resolved
      · simp [hres] at hr
      · simp only [hres, Bool.false_eq_true, if_false] at hf hr ⊢
        rw [ih _ r (cnt + 1) hf hr]
        omega

/-- C3: for every issue whose dispatches never resolve and never fault
(the loop completes with an unresolved final result), `resolve` exhausts
the clamped iteration budget, returns unresolved with a resolution
containing "Escalation", and its actions are the final attempt's actions
with the "Escalated to human review" action appended. -/
theorem escalation_after_exhaustion (m : Int) (issue ctx : Value)
    (env : EnvProbes) (r : ReasoningResult)
    (h1 : (resolveRun (engineOf m) issue ctx env).loopResult = some r)
    (h2 : r.resolved = false) :
    ((engineOf m).resolve issue ctx env).resolved = false ∧
    ((engineOf m).resolve issue ctx env).resolution =
      "Escalation required after max iterations" ∧
    containsSub "Escalation".data
      ((engineOf m).resolve issue ctx env).resolution.data = true ∧
    ((engineOf m).resolve issue ctx env).actions =
      r.actions ++ ["Escalated to human review"] ∧
    (resolveRun (engineOf m) issue ctx env).dispatches =
      (engineOf m).maxIterations := by
  unfold Engine.resolve
  cases issue with
  | dict di =>
    cases ctx with
    | dict dc =>
      simp only [resolveRun] at h1 ⊢
      cases ha : aggregateContext dc env with
      | error d0 => simp [ha] at h1
      | ok nctx =>
        simp only [ha] at h1 ⊢
        cases hf : (resolveLoop nctx (engineOf m).maxIterations di
            emptyResult 0).fault with
        | some d0 => simp [hf] at h1
        | none =>
          simp only [hf] at h1 ⊢
          have hr : (resolveLoop nctx (engineOf m).maxIterations di
              emptyResult 0).result = r := by
            simpa using h1
          have hcnt := resolveLoop_exhaust nctx (engineOf m).maxIterations di
            emptyResult 0 hf (by rw [hr]; exact h2)
          rw [hr] at *
          simp only [h2, Bool.not_false, if_true]
          exact ⟨by trivial, by trivial, by decide, by trivial, by simpa using hcnt⟩
    | null => simp [resolveRun] at h1
    | bool b => simp [resolveRun] at h1
    | int n => simp [resolveRun] at h1
    | str s => simp [resolveRun] at h1
    | list l => simp [resolveRun] at h1
  | null => simp [resolveRun] at h1
  | bool b => simp [resolveRun] at h1
  | int n => simp [resolveRun] at h1
  | str s => simp [resolveRun] at h1
  | list l => simp [resolveRun] at h1

def unknownIssue : Value :=
  Value.dict [("Type", Value.str "Other"), ("Error", Value.str "boom")]

def unknownLoopResult : ReasoningResult :=
  { emptyResult with resolution := "Unknown issue type" }

/-- C3 witness. -/
theorem escalation_after_exhaustion_witness :
    ((engineOf 3).resolve unknownIssue (Value.dict []) envAllOk).resolved
        = false ∧
    ((engineOf 3).resolve unknownIssue (Value.dict []) envAllOk).resolution =
      "Escalation required after max iterations" ∧
    containsSub "Escalation".data
      ((engineOf 3).resolve unknownIssue (Value.dict [])
        envAllOk).resolution.data = true ∧
    ((engineOf 3).resolve unknownIssue (Value.dict []) envAllOk).actions =
      unknownLoopResult.actions ++ ["Escalated to human review"] ∧
    (resolveRun (engineOf 3) unknownIssue (Value.dict [])
        envAllOk).dispatches = (engineOf 3).maxIterations :=
  escalation_after_exhaustion 3 unknownIssue (Value.dict []) envAllOk
    unknownLoopResult rfl rfl

/-- C7: root-cause classification is a pure function of the message text
(`_root_cause_analysis` factors through `classifyMsg` applied to
`str(issue.get("Error", ""))`), applying the case-insensitive
priority-ordered rule set where exactly one rule fires — first match wins —
and a message matching no rule yields the unclassified outcome (Python's
implicit `None`). -/
theorem root_cause_classification (issue : List (String × Value))
    (msg : String) :
    rootCauseAnalysis issue =
      classifyMsg (pyStr (dget issue "Error" (Value.str ""))) ∧
    (classifyMsg msg = some "Timeout" ↔
      containsSub "timeout".data (lowerChars msg.data) = true) ∧
    (classifyMsg msg = some "NetworkError" ↔
      (containsSub "timeout".data (lowerChars msg.data) = false ∧
       containsSub "network".data (lowerChars msg.data) = true)) ∧
    (classifyMsg msg = some "PermissionDenied" ↔
      (containsSub "timeout".data (lowerChars msg.data) = false ∧
       containsSub "network".data (lowerChars msg.data) = false ∧
       containsSub "permission".data (lowerChars msg.data) = true)) ∧
    (classifyMsg msg = some "RateLimit" ↔
      (containsSub "timeout".data (lowerChars msg.data) = false ∧
       containsSub "network".data (lowerChars msg.data) = false ∧
       containsSub "permission".data (lowerChars msg.data) = false ∧
       containsSub "rate".data (lowerChars msg.data) = true ∧
       containsSub "limit".data (lowerChars msg.data) = true)) ∧
    (classifyMsg msg = none ↔
      (containsSub "timeout".data (lowerChars msg.data) = false ∧
       containsSub "network".data (lowerChars msg.data) = false ∧
       containsSub "permission".data (lowerChars msg.data) = false ∧
       (containsSub "rate".data (lowerChars msg.data) = false ∨
        containsSub "limit".data (lowerChars msg.data) = false))) := by
  refine ⟨rfl, ?_, ?_, ?_, ?_, ?_⟩ <;>
  · unfold classifyMsg
    by_cases h1 : containsSub "timeout".data (lowerChars msg.data) <;>
      by_cases h2 : containsSub "network".data (lowerChars msg.data) <;>
      by_cases h3 : containsSub "permission".data (lowerChars msg.data) <;>
      by_cases h4 : containsSub "rate".data (lowerChars msg.data) <;>
      by_cases h5 : containsSub "limit".data (lowerChars msg.data) <;>
      simp [h1, h2, h3, h4, h5]

/-- C6: every ValidationFailure issue whose ValidationResult has an empty
`Errors` sequence and a non-empty `Warnings` sequence resolves on the
first dispatch with a resolution mentioning "acknowledged" and an empty
`updated_request`. -/
theorem warnings_acknowledged (m : Int) (di dc vr : List (String × Value))
    (ws : List Value) (env : EnvProbes) (nctx : List (String × Value))
    (htype : dget di "Type" Value.null = Value.str "ValidationFailure")
    (hvr : dget di "ValidationResult" (Value.dict []) = Value.dict vr)
    (herr : dget vr "Errors" (Value.list []) = Value.list [])
    (hwarn : dget vr "Warnings" Value.null = Value.list ws)
    (hws : ws ≠ [])
    (hagg : aggregateContext dc env = Except.ok nctx) :
    ((engineOf m).resolve (Value.dict di) (Value.dict dc) env).resolved
        = true ∧
    ((engineOf m).resolve (Value.dict di) (Value.dict dc) env).resolution =
      "Validation warnings acknowledged" ∧
    containsSub "acknowledged".data
      ((engineOf m).resolve (Value.dict di) (Value.dict dc)
        env).resolution.data = true ∧
    ((engineOf m).resolve (Value.dict di) (Value.dict dc)
        env).updated_request = [] ∧
    (resolveRun (engineOf m) (Value.dict di) (Value.dict dc)
        env).dispatches = 1 := by
  have hdisp : dispatchE di nctx = Except.ok
      ⟨true, "Validation warnings acknowledged", [], [], none⟩ := by
    have he : eqScalar (Value.str "ValidationFailure")
        (Value.str "ValidationFailure") = true := by
      simp [eqScalar]
    simp only [dispatchE, htype, he, if_true]
    simp only [resolveValidationFailure, hvr, getAttrDictE]
    rw [herr, hwarn]
    have hwe : ws.isEmpty = false := by
      cases ws with
      | nil => exact absurd rfl hws
      | cons a t => rfl
    simp [Value.truthy, hwe]
    exact ⟨rfl, rfl, rfl⟩
  have hcap : 1 ≤ (engineOf m).maxIterations := by
    have h1 : (1 : Int) ≤ max 1 (min m 10) := le_max_left _ _
    simp only [engineOf]
    omega
  obtain ⟨k, hk⟩ : ∃ k, (engineOf m).maxIterations = k + 1 := by
    cases hc : (engineOf m).maxIterations with
    | zero => rw [hc] at hcap; omega
    | succ k => exact ⟨k, rfl⟩
  unfold Engine.resolve
  simp only [resolveRun]
  rw [hagg, hk]
  simp only [resolveLoop, hdisp]
  simp
  decide

def warnVR : List (String × Value) :=
  [("Errors", Value.list []), ("Warnings", Value.list [Value.str "minor"])]

def warnIssueD : List (String × Value) :=
  [("Type", Value.str "ValidationFailure"), ("ValidationResult", Value.dict warnVR)]

def freshEnvCtx : List (String × Value) :=
  [("environment", Value.dict
    [("cwd", Value.str "/srv/mcp"), ("user", Value.str "svc-mcp"),
     ("hostname", Value.str "mcp-host")])]

/-- C6 witness. -/
theorem warnings_acknowledged_witness :
    ((engineOf 3).resolve (Value.dict warnIssueD) (Value.dict [])
        envAllOk).resolved = true ∧
    ((engineOf 3).resolve (Value.dict warnIssueD) (Value.dict [])
        envAllOk).resolution = "Validation warnings acknowledged" ∧
    containsSub "acknowledged".data
      ((engineOf 3).resolve (Value.dict warnIssueD) (Value.dict [])
        envAllOk).resolution.data = true ∧
    ((engineOf 3).resolve (Value.dict warnIssueD) (Value.dict [])
        envAllOk).updated_request = [] ∧
    (resolveRun (engineOf 3) (Value.dict warnIssueD) (Value.dict [])
        envAllOk).dispatches = 1 :=
  warnings_acknowledged 3 warnIssueD [] warnVR [Value.str "minor"] envAllOk
    freshEnvCtx rfl rfl rfl rfl (List.cons_ne_nil _ _) rfl

theorem pickBest_foldl_mem :
    ∀ (l : List (Nat × Nat × List Char))
      (acc : Option (Nat × Nat × List Char)) (c : Nat × Nat × List Char),
      l.foldl pickBest acc = some c → acc = some c ∨ c ∈ l := by
  intro l
  induction l with
  | nil => intro acc c h; exact Or.inl h
  | cons hd tl ih =>
    intro acc c h
    rw [List.foldl_cons] at h
    rcases ih (pickBest acc hd) c h with hacc | hmem
    · cases acc with
      | none =>
        simp only [pickBest] at hacc
        exact Or.inr (by simp [← Option.some.inj hacc])
      | some b =>
        simp only [pickBest] at hacc
        by_cases hc : (b.1 * hd.2.1 < hd.1 * b.2.1 ||
            (b.1 * hd.2.1 == hd.1 * b.2.1 && strLt b.2.2 hd.2.2)) = true
        · rw [if_pos hc] at hacc
          exact Or.inr (by simp [← Option.some.inj hacc])
        · rw [if_neg hc] at hacc
          exact Or.inl hacc
    · exact Or.inr (List.mem_cons_of_mem _ hmem)

theorem getCloseMatches1_mem (word : List Char) (poss : List (List Char))
    (x : List Char) (h : getCloseMatches1 word poss = some x) : x ∈ poss := by
  unfold getCloseMatches1 at h
  rw [Option.map_eq_some'] at h
  obtain ⟨p, hp, hx⟩ := h
  rcases pickBest_foldl_mem _ none p hp with habs | hmem
  · cases habs
  · rw [List.mem_filterMap] at hmem
    obtain ⟨y, hy, hf⟩ := hmem
    by_cases hc : 7 * (ratioParts y word).2 ≤ 10 * (ratioParts y word).1
    · simp only [hc, if_true] at hf
      have : p.2.2 = y := by rw [← Option.some.inj hf]
      rw [← hx, this]
      exact hy
    · simp only [hc, if_false] at hf
      cases hf

/-- C2 (amended): any match returned by either pass of
`_suggest_match` is the lower-cased form of an element of the supplied
candidate sequence (the code returns `lower_candidates[idx]`, not the
original candidate). -/
theorem suggest_returns_lowercased_candidate (value : String)
    (candidates : List String) (r : String)
    (h : suggestMatchStr value candidates = some r) :
    ∃ c ∈ candidates, r = String.mk (lowerChars c.data) := by
  unfold suggestMatchStr at h
  by_cases hg : (value == "" || candidates.isEmpty) = true
  · rw [if_pos hg] at h; cases h
  · rw [if_neg hg] at h
    rw [Option.map_eq_some'] at h
    obtain ⟨mlc, hm, hr⟩ := h
    unfold suggestFromLower at hm
    cases h1 : getCloseMatches1 (lowerChars value.data)
        (candidates.map (fun c => lowerChars c.data)) with
    | some m =>
      rw [h1] at hm
      have hmem := getCloseMatches1_mem _ _ _ h1
      rw [List.mem_map] at hmem
      obtain ⟨c, hc, hlc⟩ := hmem
      refine ⟨c, hc, ?_⟩
      rw [← hr, ← Option.some.inj hm, hlc]
    | none =>
      rw [h1] at hm
      cases h2 : getCloseMatches1 (lowerChars value.data)
          ((candidates.map (fun c => lowerChars c.data)).map
            (fun c => c.takeWhile (fun ch => ch != '@'))) with
      | some m =>
        rw [h2] at hm
        have hmem := getCloseMatches1_mem _ _ _ h2
        have hex : ∃ y ∈ (candidates.map (fun c => lowerChars c.data)).map
            (fun c => c.takeWhile (fun ch => ch != '@')),
            (fun c => c == m) y = true := ⟨m, hmem, by simp⟩
        have hidx := List.findIdx_lt_length_of_exists hex
        rw [List.length_map, List.length_map] at hidx
        set idx := ((candidates.map (fun c => lowerChars c.data)).map
          (fun c => c.takeWhile (fun ch => ch != '@'))).findIdx
          (fun c => c == m) with hidxdef
        have hlt : idx < (candidates.map (fun c => lowerChars c.data)).length := by
          rw [List.length_map]; exact hidx
        have hget : (candidates.map (fun c => lowerChars c.data)).getD idx [] =
            (candidates.map (fun c => lowerChars c.data))[idx] :=
          List.getD_eq_getElem _ _ hlt
        have hmm : mlc = (candidates.map (fun c => lowerChars c.data))[idx] := by
          rw [← hget, ← Option.some.inj hm]
        have hmemc : (candidates.map (fun c => lowerChars c.data))[idx] ∈
            candidates.map (fun c => lowerChars c.data) :=
          List.getElem_mem hlt
        rw [List.mem_map] at hmemc
        obtain ⟨c, hc, hlc⟩ := hmemc
        refine ⟨c, hc, ?_⟩
        rw [← hr, hmm, hlc]
      | none =>
        rw [h2] at hm
        cases hm

/-- C2 counterexample: with a candidate containing upper-case letters the
returned string is the lower-cased form, which is not an element of the
supplied candidate sequence. -/
theorem suggest_not_in_candidates :
    suggestMatchStr "bob.smiht" ["Bob.Smith@example.gov"] =
      some "bob.smith@example.gov" ∧
    "bob.smith@example.gov" ∉ (["Bob.Smith@example.gov"] : List String) :=
  ⟨rfl, by decide⟩

/-- C2 witness: the spec's concrete example (an all-lower-case candidate)
does return the full candidate, and it is the lower-cased form. -/
theorem suggest_returns_lowercased_candidate_witness :
    suggestMatchStr "bob.smiht" ["bob.smith@example.gov"] =
      some "bob.smith@example.gov" ∧
    ∃ c ∈ (["bob.smith@example.gov"] : List String),
      "bob.smith@example.gov" = String.mk (lowerChars c.data) :=
  ⟨rfl, suggest_returns_lowercased_candidate "bob.smiht"
    ["bob.smith@example.gov"] "bob.smith@example.gov" rfl⟩

theorem dispatch_updated_resolved (issue ctx : List (String × Value))
    (r : ReasoningResult) (h : dispatchE issue ctx = Except.ok r)
    (hu : r.updated_request ≠ []) : r.resolved = true := by
  unfold dispatchE at h
  split at h
  · -- ValidationFailure
    unfold resolveValidationFailure at h
    split at h
    · cases h
    · split at h
      · obtain rfl := Except.ok.inj h
        rfl
      · split at h
        · cases h
        · split at h
          · cases h
          · split at h
            · -- no suggestions: updated_request is empty
              split at h
              · cases h
              · split at h
                · cases h
                · obtain rfl := Except.ok.inj h
                  exact absurd rfl hu
            · -- suggestions applied: resolved is true
              obtain rfl := Except.ok.inj h
              rfl
  · split at h
    · -- ToolError: updated_request is always empty
      obtain rfl := Except.ok.inj h
      unfold resolveToolError at hu
      exact absurd rfl hu
    · split at h
      · -- LowConfidence: updated_request is always empty
        unfold resolveLowConfidence at h
        split at h
        · cases h
        · obtain rfl := Except.ok.inj h
          exact absurd rfl hu
      · -- unknown type: updated_request is empty
        obtain rfl := Except.ok.inj h
        exact absurd rfl hu

theorem resolveLoop_cur_eq (ctx : List (String × Value)) :
    ∀ (n : Nat) (cur : List (String × Value)) (last : ReasoningResult)
      (cnt : Nat), (resolveLoop ctx n cur last cnt).cur = cur := by
  intro n
  induction n with
  | zero => intro cur last cnt; rfl
  | succ k ih =>
    intro cur last cnt
    simp only [resolveLoop]
    cases h : dispatchE cur ctx with
    | error d => rfl
    | ok r =>
      by_cases hr : r.resolved = true
      · simp [hr]
      · have hemp : r.updated_request = [] := by
          by_cases he : r.updated_request = []
          · exact he
          · exact absurd (dispatch_updated_resolved cur ctx r h he) hr
        simp only [hr, Bool.false_eq_true, if_false, hemp,
          List.isEmpty_nil, Bool.not_true]
        exact ih cur r (cnt + 1)

/-- C9 main: unresolved resolver results never carry a non-empty
`updated_request`, so the loop's `current_issue.update(...)` never fires
and the caller's issue is returned untouched (the context is normalized
into a fresh mapping by construction). -/
theorem resolve_preserves_inputs (e : Engine) (issue ctx : Value)
    (env : EnvProbes) :
    (∀ (i c : List (String × Value)) (r : ReasoningResult),
      dispatchE i c = Except.ok r → r.updated_request ≠ [] →
      r.resolved = true) ∧
    (resolveRun e issue ctx env).workIssue = issue := by
  refine ⟨dispatch_updated_resolved, ?_⟩
  cases issue with
  | dict di =>
    cases ctx with
    | dict dc =>
      simp only [resolveRun]
      cases ha : aggregateContext dc env with
      | error d => rfl
      | ok nctx =>
        simp only []
        cases hf : (resolveLoop nctx e.maxIterations di emptyResult 0).fault with
        | some d =>
          simp only [hf]
          rw [resolveLoop_cur_eq nctx e.maxIterations di emptyResult 0]
        | none =>
          simp only [hf]
          rw [resolveLoop_cur_eq nctx e.maxIterations di emptyResult 0]
    | null => rfl
    | bool b => rfl
    | int n => rfl
    | str s => rfl
    | list l => rfl
  | null => rfl
  | bool b => rfl
  | int n => rfl
  | str s => rfl
  | list l => rfl

def c9Issue : List (String × Value) :=
  [("Type", Value.str "ValidationFailure"),
   ("ValidationResult", Value.dict
     [("Errors", Value.list [Value.str "user bob.smiht not found"])])]

def c9Ctx : List (String × Value) :=
  [("KnownUsers", Value.list [Value.str "bob.smith@piercecountywa.gov"])]

def c9Result : ReasoningResult :=
  ⟨true, "Entity corrections applied",
   [("Corrections", Value.dict
     [("bob.smiht", Value.str "bob.smith@piercecountywa.gov")])],
   ["Applied corrections: \x7b'bob.smiht': 'bob.smith@piercecountywa.gov'\x7d"],
   none⟩

/-- C9 witness: a dispatch that does produce a non-empty
`updated_request` is resolved, and the caller's issue survives `resolve`
unchanged. -/
theorem resolve_preserves_inputs_witness :
    c9Result.resolved = true ∧
    (resolveRun (engineOf 3) (Value.dict c9Issue) (Value.dict c9Ctx)
        envAllOk).workIssue = Value.dict c9Issue :=
  ⟨(resolve_preserves_inputs (engineOf 3) (Value.dict c9Issue)
      (Value.dict c9Ctx) envAllOk).1 c9Issue c9Ctx c9Result rfl
      (List.cons_ne_nil _ _),
   (resolve_preserves_inputs (engineOf 3) (Value.dict c9Issue)
      (Value.dict c9Ctx) envAllOk).2⟩

theorem setKey_not_mem (d : List (String × Value)) (k : String) (v : Value)
    (h : ∀ p ∈ d, p.1 ≠ k) : setKey d k v = d ++ [(k, v)] := by
  unfold setKey
  rw [if_neg]
  intro hc
  rcases List.any_eq_true.mp hc with ⟨p, hp, hb⟩
  exact h p hp (by simpa using hb)

theorem aggregateEntries_normalized :
    ∀ (c acc : List (String × Value)),
      (∀ p ∈ c, ∀ q ∈ acc, p.1 ≠ q.1) →
      (c.map Prod.fst).Nodup →
      (∀ p ∈ c, p.2 ≠ Value.null) →
      (∀ p ∈ c, ∀ l, p.2 = Value.list l →
        l.all hashable = true ∧ dedupFirst l = l ∧ l.length ≤ 50) →
      (∀ p ∈ c, ∀ d, p.2 = Value.dict d → d ≠ []) →
      aggregateEntries acc c = Except.ok (acc ++ c) := by
  intro c
  induction c with
  | nil => intro acc _ _ _ _ _; simp [aggregateEntries]
  | cons hd tl ih =>
    intro acc hdisj hnd hnull hlist hdict
    obtain ⟨k, v⟩ := hd
    have hmem : (k, v) ∈ (k, v) :: tl := List.mem_cons_self _ _
    have hfreshacc : ∀ p ∈ acc, p.1 ≠ k := by
      intro p hp
      exact fun hc => hdisj (k, v) hmem p hp hc.symm
    have hfreshtl : ∀ p ∈ tl, p.1 ≠ k := by
      intro p hp hc
      have hk : k ∉ tl.map Prod.fst := by
        have := hnd
        simp only [List.map_cons, List.nodup_cons] at this
        exact this.1
      exact hk (by rw [← hc]; exact List.mem_map_of_mem _ hp)
    have hsk : ∀ v', setKey acc k v' = acc ++ [(k, v')] := fun v' =>
      setKey_not_mem acc k v' hfreshacc
    have hdisj' : ∀ v', ∀ p ∈ tl, ∀ q ∈ acc ++ [(k, v')], p.1 ≠ q.1 := by
      intro v' p hp q hq
      rcases List.mem_append.mp hq with hq1 | hq2
      · exact hdisj p (List.mem_cons_of_mem _ hp) q hq1
      · have : q = (k, v') := by simpa using hq2
        rw [this]
        exact hfreshtl p hp
    have hnd' : (tl.map Prod.fst).Nodup := by
      have := hnd
      simp only [List.map_cons, List.nodup_cons] at this
      exact this.2
    have hnull' : ∀ p ∈ tl, p.2 ≠ Value.null := fun p hp =>
      hnull p (List.mem_cons_of_mem _ hp)
    have hlist' : ∀ p ∈ tl, ∀ l, p.2 = Value.list l →
        l.all hashable = true ∧ dedupFirst l = l ∧ l.length ≤ 50 :=
      fun p hp => hlist p (List.mem_cons_of_mem _ hp)
    have hdict' : ∀ p ∈ tl, ∀ d, p.2 = Value.dict d → d ≠ [] :=
      fun p hp => hdict p (List.mem_cons_of_mem _ hp)
    cases v with
    | null => exact absurd rfl (hnull (k, Value.null) hmem)
    | list l =>
      obtain ⟨hh, hdp, hlen⟩ := hlist (k, Value.list l) hmem l rfl
      have hfind : l.find? (fun x => !hashable x) = none := by
        rw [List.find?_eq_none]
        intro x hx hc
        have := List.all_eq_true.mp hh x hx
        simp [this] at hc
      have hnorm : normalizeListE l = Except.ok l := by
        unfold normalizeListE
        rw [hfind, hdp]
        unfold takeLast
        rw [Nat.sub_eq_zero_of_le hlen, List.drop_zero]
      simp only [aggregateEntries, hnorm]
      rw [hsk (Value.list l),
        ih (acc ++ [(k, Value.list l)]) (hdisj' _) hnd' hnull' hlist' hdict']
      simp
    | dict d =>
      have hne := hdict (k, Value.dict d) hmem d rfl
      have hie : d.isEmpty = false := by
        cases d with
        | nil => exact absurd rfl hne
        | cons a t => rfl
      simp only [aggregateEntries, hie, Bool.false_eq_true, if_false]
      rw [hsk (Value.dict d),
        ih (acc ++ [(k, Value.dict d)]) (hdisj' _) hnd' hnull' hlist' hdict']
      simp
    | bool b =>
      simp only [aggregateEntries]
      rw [hsk (Value.bool b),
        ih (acc ++ [(k, Value.bool b)]) (hdisj' _) hnd' hnull' hlist' hdict']
      simp
    | int n =>
      simp only [aggregateEntries]
      rw [hsk (Value.int n),
        ih (acc ++ [(k, Value.int n)]) (hdisj' _) hnd' hnull' hlist' hdict']
      simp
    | str s =>
      simp only [aggregateEntries]
      rw [hsk (Value.str s),
        ih (acc ++ [(k, Value.str s)]) (hdisj' _) hnd' hnull' hlist' hdict']
      simp

/-- C5 (amended): on an already-normalized context whose
list values contain only hashable entries, `aggregate_context` succeeds
and returns the input with only the `environment` key overwritten by the
fresh diagnostics. -/
theorem aggregate_idempotent (c : List (String × Value)) (env : EnvProbes)
    (ed : List (String × Value))
    (hnd : (c.map Prod.fst).Nodup)
    (hnull : ∀ p ∈ c, p.2 ≠ Value.null)
    (hlist : ∀ p ∈ c, ∀ l, p.2 = Value.list l →
      l.all hashable = true ∧ dedupFirst l = l ∧ l.length ≤ 50)
    (hdict : ∀ p ∈ c, ∀ d, p.2 = Value.dict d → d ≠ [])
    (henv : collectEnvironmentContext env = Except.ok ed) :
    aggregateContext c env =
      Except.ok (setKey c "environment" (Value.dict ed)) ∧
    (∀ k, k ≠ "environment" →
      dgetOpt (setKey c "environment" (Value.dict ed)) k = dgetOpt c k) ∧
    dgetOpt (setKey c "environment" (Value.dict ed)) "environment" =
      some (Value.dict ed) := by
  have hagg := aggregateEntries_normalized c [] (by simp) hnd hnull hlist hdict
  refine ⟨?_, ?_, ?_⟩
  · unfold aggregateContext
    rw [hagg, henv]
    simp
  · intro k hk
    exact dgetOpt_setKey_ne c "environment" k (Value.dict ed) hk
  · exact dgetOpt_setKey_self c "environment" (Value.dict ed)

/-- C5 counterexample: a context that satisfies every normalization
condition the claim lists (no nulls, no duplicate list entries, one item
per list, no empty sub-mappings) on which `aggregate_context` raises
`TypeError` instead of returning a mapping, because `dict.fromkeys` cannot
hash the nested dict inside the list value. -/
theorem aggregate_unhashable_counterexample :
    aggregateContext
        [("items", Value.list [Value.dict [("a", Value.int 1)]])] envAllOk =
      Except.error "unhashable type: 'dict'" ∧
    dedupFirst [Value.dict [("a", Value.int 1)]] =
      [Value.dict [("a", Value.int 1)]] ∧
    [Value.dict [("a", Value.int 1)]].length ≤ 50 :=
  ⟨rfl, rfl, by decide⟩

def c5Ctx : List (String × Value) :=
  [("KnownUsers", Value.list [Value.str "ann", Value.str "bob"]),
   ("note", Value.str "x")]

def c5Env : List (String × Value) :=
  [("cwd", Value.str "/srv/mcp"), ("user", Value.str "svc-mcp"),
   ("hostname", Value.str "mcp-host")]

/-- C5 witness. -/
theorem aggregate_idempotent_witness :
    aggregateContext c5Ctx envAllOk =
      Except.ok (setKey c5Ctx "environment" (Value.dict c5Env)) ∧
    (∀ k, k ≠ "environment" →
      dgetOpt (setKey c5Ctx "environment" (Value.dict c5Env)) k =
        dgetOpt c5Ctx k) ∧
    dgetOpt (setKey c5Ctx "environment" (Value.dict c5Env)) "environment" =
      some (Value.dict c5Env) := by
  refine aggregate_idempotent c5Ctx envAllOk c5Env (by decide) ?_ ?_ ?_ rfl
  · intro p hp
    simp only [c5Ctx, List.mem_cons, List.not_mem_nil, or_false] at hp
    rcases hp with rfl | rfl <;> exact fun h => Value.noConfusion h
  · intro p hp l hl
    simp only [c5Ctx, List.mem_cons, List.not_mem_nil, or_false] at hp
    rcases hp with rfl | rfl
    · injection hl with hl
      subst hl
      exact ⟨rfl, rfl, by decide⟩
    · exact Value.noConfusion hl
  · intro p hp d hd
    simp only [c5Ctx, List.mem_cons, List.not_mem_nil, or_false] at hp
    rcases hp with rfl | rfl <;> exact Value.noConfusion hd

/-- C8 counterexample: (i) when the cwd probe is unavailable the fault
propagates out of `collect_environment_context` (the `except` handler calls
`os.getcwd()` again), so normalization aborts too; (ii) when only the
hostname probe fails, the fallback returns just `{"cwd": ...}`, discarding
the `user` field even though that probe succeeded. -/
theorem env_collection_counterexample :
    collectEnvironmentContext
        ⟨Except.error "OSError: getcwd failed", Except.ok "svc-mcp",
          Except.ok "mcp-host"⟩ =
      Except.error "OSError: getcwd failed" ∧
    aggregateContext []
        ⟨Except.error "OSError: getcwd failed", Except.ok "svc-mcp",
          Except.ok "mcp-host"⟩ =
      Except.error "OSError: getcwd failed" ∧
    collectEnvironmentContext
        ⟨Except.ok "/srv/mcp", Except.ok "svc-mcp",
          Except.error "AttributeError: uname"⟩ =
      Except.ok [("cwd", Value.str "/srv/mcp")] :=
  ⟨rfl, rfl, rfl⟩

/-- C8 (amended): as long as the cwd probe succeeds, no
fault escapes diagnostics collection and normalization completes; the
collected fields are either all three (every probe succeeded) or only
`cwd` (some later probe failed).  A failing cwd probe, by contrast, raises
out of the collection (see the counterexample); `resolve` still catches
that fault at its outer boundary. -/
theorem env_collection_best_effort (ctx base : List (String × Value))
    (env : EnvProbes) (c : String)
    (hc : env.cwd = Except.ok c)
    (hb : aggregateEntries [] ctx = Except.ok base) :
    ∃ d, collectEnvironmentContext env = Except.ok d ∧
      ((∃ u h, env.user = Except.ok u ∧ env.hostname = Except.ok h ∧
        d = [("cwd", Value.str c), ("user", Value.str u),
             ("hostname", Value.str h)]) ∨
       d = [("cwd", Value.str c)]) ∧
      aggregateContext ctx env =
        Except.ok (setKey base "environment" (Value.dict d)) := by
  obtain ⟨cw, us, hn⟩ := env
  simp only at hc
  subst hc
  cases us with
  | ok u =>
    cases hn with
    | ok h =>
      refine ⟨[("cwd", Value.str c), ("user", Value.str u),
        ("hostname", Value.str h)], rfl, Or.inl ⟨u, h, rfl, rfl, rfl⟩, ?_⟩
      unfold aggregateContext
      rw [hb]
      rfl
    | error eh =>
      refine ⟨[("cwd", Value.str c)], rfl, Or.inr rfl, ?_⟩
      unfold aggregateContext
      rw [hb]
      rfl
  | error eu =>
    cases hn with
    | ok h =>
      refine ⟨[("cwd", Value.str c)], rfl, Or.inr rfl, ?_⟩
      unfold aggregateContext
      rw [hb]
      rfl
    | error eh =>
      refine ⟨[("cwd", Value.str c)], rfl, Or.inr rfl, ?_⟩
      unfold aggregateContext
      rw [hb]
      rfl

/-- C8 witness: hostname probe unavailable, cwd available — collection
returns the cwd-only mapping and normalization completes. -/
theorem env_collection_best_effort_witness :
    ∃ d, collectEnvironmentContext
        ⟨Except.ok "/srv/mcp", Except.ok "svc-mcp",
          Except.error "AttributeError: uname"⟩ = Except.ok d ∧
      ((∃ u h,
        (⟨Except.ok "/srv/mcp", Except.ok "svc-mcp",
          Except.error "AttributeError: uname"⟩ : EnvProbes).user =
            Except.ok u ∧
        (⟨Except.ok "/srv/mcp", Except.ok "svc-mcp",
          Except.error "AttributeError: uname"⟩ : EnvProbes).hostname =
            Except.ok h ∧
        d = [("cwd", Value.str "/srv/mcp"), ("user", Value.str u),
             ("hostname", Value.str h)]) ∨
       d = [("cwd", Value.str "/srv/mcp")]) ∧
      aggregateContext []
        ⟨Except.ok "/srv/mcp", Except.ok "svc-mcp",
          Except.error "AttributeError: uname"⟩ =
        Except.ok (setKey [] "environment" (Value.dict d)) :=
  env_collection_best_effort [] []
    ⟨Except.ok "/srv/mcp", Except.ok "svc-mcp",
      Except.error "AttributeError: uname"⟩ "/srv/mcp" rfl rfl
